import Mathlib

/-!
Shallow embedding of `src/data_modules/spikeplots.py`, a module of plotting
helpers for retinal-ganglion-cell spike data.  Numbers are modelled as
rationals (Python floats, used here only through `+ - * /`), Python dicts as
lookup functions or association lists, and fallible code (KeyError,
IndexError, reductions over empty arrays whose results break the following
drawing calls) as `Option`-valued functions.  The drawing surface (a
matplotlib `Axes`) is modelled by an explicit `AxState` record holding the
pieces of axes state the module mutates: axis limits, the ellipse artists
added, the text labels added, and the title.
-/

namespace SpikePlots

/-- A matplotlib color: either an RGB triple (e.g. the value of
`np.random.rand(3)` or a seaborn palette entry) or a named/string color
such as `'k'` or `'C0'`. -/
inductive Color where
  | rgb (r g b : ℚ)
  | named (s : String)
deriving DecidableEq, Repr

/-- The `facecolor` argument of `plot_rfs`: Python distinguishes
`isinstance(facecolor, tuple) or isinstance(facecolor, str)` (a single color,
broadcast to every ellipse) from a per-cell list of colors. -/
inductive FaceColor where
  | single (c : Color)
  | percell (cs : List Color)
deriving DecidableEq, Repr

/-- One entry of the STA-fit dictionary `d_sta[n_ID]`: the keys read by this
module are `x0, y0, SigmaX, SigmaY, Theta` and the two time-course
waveforms `RedTimeCourse`, `BlueTimeCourse`. -/
structure STAFit where
  x0 : ℚ
  y0 : ℚ
  SigmaX : ℚ
  SigmaY : ℚ
  Theta : ℚ
  RedTimeCourse : List ℚ
  BlueTimeCourse : List ℚ
deriving DecidableEq, Repr

/-- An ellipse geometry as built by `matplotlib.patches.Ellipse`:
center `(cx, cy)`, width, height and rotation angle. -/
structure Ellipse where
  cx : ℚ
  cy : ℚ
  width : ℚ
  height : ℚ
  angle : ℚ
deriving DecidableEq, Repr

/-- An ellipse artist after the styling calls in `plot_rfs`
(`set_alpha`, `set_edgecolor`, `set_facecolor`, `set_linewidth`). -/
structure DrawnEllipse where
  ell : Ellipse
  alpha : ℚ
  edgecolor : Color
  facecolor : Color
  lw : ℚ
deriving DecidableEq, Repr

/-- The axes state this module manipulates: axis limits (`set_xlim` /
`set_ylim`), the ellipse artists added with `add_artist`, text labels added
with `ax.text`, and the title (`set_title`). -/
structure AxState where
  xlim : Option (ℚ × ℚ)
  ylim : Option (ℚ × ℚ)
  artists : List DrawnEllipse
  texts : List (ℚ × ℚ × String)
  title : String
deriving DecidableEq, Repr

/-- A freshly created axes (from `plt.subplots`). -/
def freshAx : AxState :=
  { xlim := none, ylim := none, artists := [], texts := [], title := "" }

/-- The slice of the `SpikeOutputs` data container read by this module:
the noise-grid scalar, the STA-fit dictionary (`d_sta`, modelled as a
lookup function on cluster IDs), the cell-type → cluster-ID mapping
`types.d_main_IDs` (association list), the default label list
`ls_RGC_labels`, and the contrast-response data `d_crf`
(`unique_params/contrast`, `cluster_id`, and the `4Hz_amp` matrix). -/
structure SpikeOutputs where
  str_experiment : String
  str_chunk : String
  NOISE_GRID_SIZE : ℚ
  d_sta : Nat → Option STAFit
  d_main_IDs : List (String × List Nat)
  ls_RGC_labels : List String
  crf_contrast : List ℚ
  crf_cluster_id : List Nat
  crf_amp : List (List ℚ)

/-- Source `get_rf_ells(ls_cells, d_sta, NOISE_GRID_SIZE, sd_mult)`: the list
comprehension building one `Ellipse` per requested cluster ID, with
center `(d_sta[n]['x0']*NOISE_GRID_SIZE, d_sta[n]['y0']*NOISE_GRID_SIZE)`,
width `SigmaX*2*NOISE_GRID_SIZE*sd_mult`, height `SigmaY*2*NOISE_GRID_SIZE*sd_mult`
and angle `Theta`.  A missing dictionary key raises KeyError, modelled as
`none`. -/
def get_rf_ells (ls_cells : List Nat) (d_sta : Nat → Option STAFit)
    (NOISE_GRID_SIZE : ℚ) (sd_mult : ℚ) : Option (List Ellipse) :=
  match ls_cells with
  | [] => some []
  | n_ID :: rest =>
    match d_sta n_ID, get_rf_ells rest d_sta NOISE_GRID_SIZE sd_mult with
    | some fit, some ells =>
        some ({ cx := fit.x0 * NOISE_GRID_SIZE
              , cy := fit.y0 * NOISE_GRID_SIZE
              , width := fit.SigmaX * 2 * NOISE_GRID_SIZE * sd_mult
              , height := fit.SigmaY * 2 * NOISE_GRID_SIZE * sd_mult
              , angle := fit.Theta } :: ells)
    | _, _ => none

/-- Numpy `np.min` over a nonempty list (`none` on the empty list, where numpy
raises). -/
def foldMin (xs : List ℚ) : Option ℚ :=
  match xs with
  | [] => none
  | x :: rest => some (rest.foldl min x)

/-- Numpy `np.max` over a nonempty list (`none` on the empty list, where numpy
raises). -/
def foldMax (xs : List ℚ) : Option ℚ :=
  match xs with
  | [] => none
  | x :: rest => some (rest.foldl max x)

/-- The artist-styling loop of `plot_rfs`: each ellipse is added to the axes
and styled with the shared alpha, edge color and line width, and with
`ls_facecolors[idx_ell]`.  Walking the facecolor list in step with the
ellipse list is the same as indexing it by position; running out of
facecolors is the IndexError of `ls_facecolors[idx_ell]`, modelled as
`none`. -/
def drawElls (ells : List Ellipse) (fcs : List Color) (alpha : ℚ)
    (ecolor : Color) (lw : ℚ) : Option (List DrawnEllipse) :=
  match ells with
  | [] => some []
  | e :: rest =>
    match fcs with
    | [] => none
    | fc :: fcs' =>
      match drawElls rest fcs' alpha ecolor lw with
      | some ds =>
          some ({ ell := e, alpha := alpha, edgecolor := ecolor
                , facecolor := fc, lw := lw } :: ds)
      | none => none

/-- The `b_label` loop of `plot_rfs`: one `ax.text` call per ellipse at the
ellipse center, showing the cluster ID. -/
def labelTexts (ells : List Ellipse) (ls_cells : List Nat) :
    List (ℚ × ℚ × String) :=
  (ells.zip ls_cells).map (fun p => (p.1.cx, p.1.cy, toString p.2))

/-- The `if not ax` / `if SCALING is None` prologue of `plot_rfs`: create a
fresh axes when none was passed, and when `SCALING` is `None` set the axis
limits to `(0, 5000)`. -/
def axInit (ax : Option AxState) (SCALING : Option ℚ) : AxState :=
  let ax0 := match ax with
    | none => freshAx
    | some a => a
  match SCALING with
  | none => { ax0 with xlim := some (0, 5000), ylim := some (0, 5000) }
  | some _ => ax0

/-- The scaling used by `plot_rfs`: `spikeout.NOISE_GRID_SIZE` when
`SCALING` is `None`, else `SCALING`. -/
def scalingOf (spikeout : SpikeOutputs) (SCALING : Option ℚ) : ℚ :=
  match SCALING with
  | none => spikeout.NOISE_GRID_SIZE
  | some s => s

/-- Source `if not ell_color: ell_color = np.random.rand(3)`: the ellipse edge
color defaults to a draw from the global random generator. -/
def ecolorOf (ell_color : Option Color) (rng_color : Color) : Color :=
  match ell_color with
  | none => rng_color
  | some c => c

/-- Source comment `If facecolor is tuple, make it a list of tuples`: a single color is
broadcast to a list of the ellipse count's length; a list is used as is. -/
def broadcastFace (facecolor : FaceColor) (n : Nat) : List Color :=
  match facecolor with
  | FaceColor.single c => List.replicate n c
  | FaceColor.percell cs => cs

/-- The `if b_label:` step of `plot_rfs`: add one text per ellipse. -/
def applyLabels (b_label : Bool) (ells : List Ellipse) (ls_cells : List Nat)
    (ax : AxState) : AxState :=
  if b_label then { ax with texts := ax.texts ++ labelTexts ells ls_cells }
  else ax

/-- The `if b_zoom and len(ells) > 0:` step of `plot_rfs`: set each axis
range to [min center − 400, max center + 400]; skipped when `b_zoom` is
false or no ellipse is present. -/
def applyZoom (b_zoom : Bool) (ells : List Ellipse) (ax : AxState) : AxState :=
  match b_zoom, ells with
  | true, e0 :: rest =>
    let x0s := (e0 :: rest).map (fun el => el.cx)
    let y0s := (e0 :: rest).map (fun el => el.cy)
    match foldMin x0s, foldMax x0s, foldMin y0s, foldMax y0s with
    | some x0_min, some x0_max, some y0_min, some y0_max =>
      { ax with xlim := some (x0_min - 400, x0_max + 400)
              , ylim := some (y0_min - 400, y0_max + 400) }
    | _, _, _, _ => ax
  | _, _ => ax

/-- Source `plot_rfs(spikeout, ls_cells, ell_color, ax, sd_mult, alpha, facecolor,
SCALING, b_label, b_zoom, lw)`.  The extra argument `rng_color` models the
ambient state of numpy's global random generator: it is the triple that
`np.random.rand(3)` would return, used only when `ell_color` is `None`.
Figure creation and clip boxes are presentation-only and elided.  Returns
the final axes state and the ellipse list, or `none` on a KeyError from
`get_rf_ells` or an IndexError from the facecolor list. -/
def plot_rfs (spikeout : SpikeOutputs) (ls_cells : List Nat)
    (ell_color : Option Color) (ax : Option AxState) (sd_mult : ℚ)
    (alpha : ℚ) (facecolor : FaceColor) (SCALING : Option ℚ)
    (b_label : Bool) (b_zoom : Bool) (lw : ℚ)
    (rng_color : Color) : Option (AxState × List Ellipse) :=
  let ax1 := axInit ax SCALING
  let ecolor := ecolorOf ell_color rng_color
  match get_rf_ells ls_cells spikeout.d_sta (scalingOf spikeout SCALING) sd_mult with
  | none => none
  | some ells =>
    match drawElls ells (broadcastFace facecolor ells.length) alpha ecolor lw with
    | none => none
    | some artists =>
      let ax2 := { ax1 with artists := ax1.artists ++ artists }
      let ax3 := applyLabels b_label ells ls_cells ax2
      some (applyZoom b_zoom ells ax3, ells)

/-- Python `for i, x in enumerate(xs)` over an `Option`-valued body: the whole loop
faults if any iteration faults. -/
def mapIdxM {α β : Type} (f : Nat → α → Option β) : Nat → List α → Option (List β)
  | _, [] => some []
  | i, a :: as =>
    match f i a, mapIdxM f (i + 1) as with
    | some b, some bs => some (b :: bs)
    | _, _ => none

/-- Python `[f x for x in xs]` over an `Option`-valued body. -/
def mapOptM {α β : Type} (f : α → Option β) : List α → Option (List β)
  | [] => some []
  | a :: as =>
    match f a, mapOptM f as with
    | some b, some bs => some (b :: bs)
    | _, _ => none

/-- One panel of the multi-type receptive-field grid: the axes drawn into
and the ellipses returned by `plot_rfs`. -/
structure RFPanel where
  ax : AxState
  ells : List Ellipse
deriving DecidableEq, Repr

/-- The loop body of `plot_type_rfs` for panel `i` with key `str_key`:
look up the type's cluster IDs in `d_IDs` (KeyError if absent), look up the
label/color/facecolor at index `i` (IndexError if the lists are short),
drop the cells without an entry in `data.d_sta`, delegate to `plot_rfs`
(with a fresh subplot axes, default `SCALING=None`, `b_label=False`,
`lw=1`), and set the panel title to `label + ' (n=...) RFs'` with the
filtered cell count. -/
def rf_panel (data : SpikeOutputs) (d_IDs : List (String × List Nat))
    (ls_colors : List Color) (ls_facecolors : List FaceColor)
    (ls_RGC_labels : List String) (alpha : ℚ) (b_zoom : Bool) (sd_mult : ℚ)
    (rng_color : Color) (i : Nat) (str_key : String) : Option RFPanel :=
  match List.lookup str_key d_IDs, ls_RGC_labels[i]?,
        ls_colors[i]?, ls_facecolors[i]? with
  | some ls_cells0, some ls_label, some color, some fc =>
    let ls_cells := ls_cells0.filter (fun c => (data.d_sta c).isSome)
    match plot_rfs data ls_cells (some color) (some freshAx) sd_mult alpha
          fc none false b_zoom 1 rng_color with
    | some (ax1, ells) =>
        some { ax := { ax1 with
                 title := ls_label ++ " (n=" ++ toString ls_cells.length ++ ") RFs" }
             , ells := ells }
    | none => none
  | _, _, _, _ => none

/-- Source `plot_type_rfs(data, ls_RGC_keys, ls_colors, axs, ls_facecolors, alpha,
b_ticks_off, ls_RGC_labels, d_IDs, b_zoom, sd_mult)`.  Defaults from the
source: `d_IDs = data.types.d_main_IDs`, `ls_RGC_keys = list(d_IDs.keys())`,
`ls_facecolors = ls_colors`, `ls_RGC_labels = ls_RGC_keys`.  Figure
creation, the figure-level experiment/chunk text and the `b_ticks_off`
tick-hiding loop are presentation-only and elided.  `rng_color` is threaded
to `plot_rfs` (which never uses it here, since an explicit `ell_color` is
always passed). -/
def plot_type_rfs (data : SpikeOutputs) (ls_RGC_keys : Option (List String))
    (ls_colors : List Color) (ls_facecolors : Option (List FaceColor))
    (alpha : ℚ) (b_ticks_off : Bool) (ls_RGC_labels : Option (List String))
    (d_IDs : Option (List (String × List Nat))) (b_zoom : Bool) (sd_mult : ℚ)
    (rng_color : Color) : Option (List RFPanel) :=
  let d_IDs2 := d_IDs.getD data.d_main_IDs
  let keys := ls_RGC_keys.getD (d_IDs2.map Prod.fst)
  let fcs := ls_facecolors.getD (ls_colors.map FaceColor.single)
  let labels := ls_RGC_labels.getD keys
  mapIdxM (rf_panel data d_IDs2 ls_colors fcs labels alpha b_zoom sd_mult rng_color) 0 keys

/-- Numpy `np.mean` of a 1-D array: sum divided by length.  (Only applied to
nonempty columns in the places where the source is fault-free.) -/
def meanQ (xs : List ℚ) : ℚ := xs.sum / (xs.length : ℚ)

/-- Numpy `np.std(xs)**2`: the population variance, mean of squared deviations
from the mean.  `np.std` itself is the nonnegative square root of this,
which is irrational in general; theorems characterize the plotted standard
deviation `s` by `0 ≤ s ∧ s^2 = popVar xs` (see `isSqrtOf`). -/
def popVar (xs : List ℚ) : ℚ :=
  meanQ (xs.map (fun x => (x - meanQ xs) ^ 2))

/-- Holds when `s` is the nonnegative square root of `v`, i.e. the value `np.sqrt v`
when it is exact. -/
abbrev isSqrtOf (s v : ℚ) : Prop := 0 ≤ s ∧ s ^ 2 = v

/-- Column `j` of a row-major matrix (for the rectangular matrices numpy
builds from equal-length waveforms). -/
def colAt (rows : List (List ℚ)) (j : Nat) : List ℚ :=
  rows.filterMap (fun r => r[j]?)

/-- The number of columns numpy infers for a rectangular stack of rows. -/
def ncols (rows : List (List ℚ)) : Nat :=
  match rows with
  | [] => 0
  | r :: _ => r.length

/-- Numpy `np.mean(rows, axis=0)` for a rectangular nonempty stack of rows. -/
def colMeans (rows : List (List ℚ)) : List ℚ :=
  (List.range (ncols rows)).map (fun j => meanQ (colAt rows j))

/-- Numpy `np.std(rows, axis=0)**2` elementwise: the per-column population
variances. -/
def colVars (rows : List (List ℚ)) : List ℚ :=
  (List.range (ncols rows)).map (fun j => popVar (colAt rows j))

/-- Source `[data.d_sta[n_ID][chan] for n_ID in ls_cells]`: collect one waveform
per cell from the STA-fit dictionary (`chan` selects the
`RedTimeCourse`/`BlueTimeCourse` entry); KeyError modelled as `none`. -/
def getWaveforms (ls_cells : List Nat) (d_sta : Nat → Option STAFit)
    (chan : STAFit → List ℚ) : Option (List (List ℚ)) :=
  match ls_cells with
  | [] => some []
  | n :: ns =>
    match d_sta n, getWaveforms ns d_sta chan with
    | some fit, some rest => some (chan fit :: rest)
    | _, _ => none

/-- The non-mean branch of `plot_type_tcs`: per cell, plot its red and blue
time courses (each plot call reads `ls_colors[0]` / `ls_colors[1]`; a
too-short color list is an IndexError, which with an empty cell list never
fires because the loop body never runs). -/
def indivWaveforms (ls_cells : List Nat) (d_sta : Nat → Option STAFit)
    (ls_colors : List Color) : Option (List (List ℚ × List ℚ)) :=
  match ls_cells with
  | [] => some []
  | n :: ns =>
    match d_sta n, ls_colors[0]?, ls_colors[1]?,
          indivWaveforms ns d_sta ls_colors with
    | some fit, some _, some _, some rest =>
        some ((fit.RedTimeCourse, fit.BlueTimeCourse) :: rest)
    | _, _, _, _ => none

/-- What one time-course panel draws: either the two mean traces with their
±1-standard-deviation bands (recorded as per-sample mean and variance per
channel; the band half width is the nonnegative square root of the
variance), or the individual (red, blue) waveform pairs. -/
inductive TCContent where
  | meanBands (meanRed varRed meanBlue varBlue : List ℚ)
  | individual (curves : List (List ℚ × List ℚ))
deriving DecidableEq, Repr

/-- One panel of the multi-type time-course grid. -/
structure TCPanel where
  cells : List Nat
  content : TCContent
  title : String
deriving DecidableEq, Repr

/-- The loop body of `plot_type_tcs` for panel `i` with key `str_key`.
Note the source reads `data.types.d_main_IDs[str_key]` here — not the
`d_IDs` argument (KeyError if the key is missing from `d_main_IDs`).  Cells
without a `d_sta` entry are dropped.  In mean mode with zero remaining
cells, `np.mean` over the empty stack yields a size-less NaN scalar and the
following `fill_between(np.arange(len(mean)), ...)` raises TypeError; that
fault is the `[] => none` case.  The horizontal zero line is presentation
only and elided. -/
def tc_panel (data : SpikeOutputs) (ls_colors : List Color)
    (ls_RGC_labels : List String) (alpha : ℚ) (b_plot_mean : Bool)
    (lw : ℚ) (i : Nat) (str_key : String) : Option TCPanel :=
  match List.lookup str_key data.d_main_IDs, ls_RGC_labels[i]? with
  | some ls_cells0, some str_label =>
    let ls_cells := ls_cells0.filter (fun c => (data.d_sta c).isSome)
    if b_plot_mean then
      match getWaveforms ls_cells data.d_sta (fun f => f.RedTimeCourse),
            getWaveforms ls_cells data.d_sta (fun f => f.BlueTimeCourse),
            ls_colors[0]?, ls_colors[1]? with
      | some redTcs, some blueTcs, some _, some _ =>
        match ls_cells with
        | [] => none
        | _ :: _ =>
          some { cells := ls_cells
               , content := TCContent.meanBands (colMeans redTcs) (colVars redTcs)
                              (colMeans blueTcs) (colVars blueTcs)
               , title := str_label ++ " (n=" ++ toString ls_cells.length
                            ++ ") timecourses" }
      | _, _, _, _ => none
    else
      match indivWaveforms ls_cells data.d_sta ls_colors with
      | some curves =>
          some { cells := ls_cells
               , content := TCContent.individual curves
               , title := str_label ++ " (n=" ++ toString ls_cells.length
                            ++ ") timecourses" }
      | none => none
  | _, _ => none

/-- Source `plot_type_tcs(data, ls_RGC_keys, axs, ls_colors, alpha, b_plot_mean,
ls_RGC_labels, lw, d_IDs)`.  Defaults from the source:
`d_IDs = data.types.d_main_IDs`, `ls_RGC_keys = list(d_IDs.keys())`,
`ls_colors = ['C1', 'C0']`, `ls_RGC_labels = ls_RGC_keys`.  The `d_IDs`
argument is consulted only for the default key list; the loop body reads
`data.types.d_main_IDs` directly (see `tc_panel`).  Figure creation and the
figure-level text are elided. -/
def plot_type_tcs (data : SpikeOutputs) (ls_RGC_keys : Option (List String))
    (ls_colors : Option (List Color)) (alpha : ℚ) (b_plot_mean : Bool)
    (ls_RGC_labels : Option (List String)) (lw : ℚ)
    (d_IDs : Option (List (String × List Nat))) : Option (List TCPanel) :=
  let d_IDs2 := d_IDs.getD data.d_main_IDs
  let keys := ls_RGC_keys.getD (d_IDs2.map Prod.fst)
  let colors := ls_colors.getD [Color.named ("C1"), Color.named ("C0")]
  let labels := ls_RGC_labels.getD keys
  mapIdxM (tc_panel data colors labels alpha b_plot_mean lw) 0 keys

/-- Fancy row indexing `mat[idxs, :]`: the rows of `mat` at the given
indices, IndexError (`none`) if one is out of range. -/
def rowsAt (idxs : List Nat) (mat : List (List ℚ)) : Option (List (List ℚ)) :=
  match idxs with
  | [] => some []
  | i :: is =>
    match mat[i]?, rowsAt is mat with
    | some row, some rest => some (row :: rest)
    | _, _ => none

/-- Modelled from the spec: `map_ids_to_idx` lives in the external
`celltype_io` module, which is not part of this repository snapshot.  The
spec says the contrast-response renderer "maps them to row indices in a
contrast-response-amplitude matrix" and "requires the amplitude matrix's
row ordering to correspond exactly to the ID-to-index mapping", so each
cluster ID maps to its position in the `cluster_id` vector. -/
def map_ids_to_idx (type_ids : List Nat) (cluster_ids : List Nat) : List Nat :=
  type_ids.map (fun n => List.indexOf n cluster_ids)

/-- One plotted curve of `plot_crf`: its legend label, the per-contrast
mean, and the per-contrast population variance (the plotted band is
mean ± s where `isSqrtOf s variance`). -/
structure CRFCurve where
  label : String
  mean : List ℚ
  var : List ℚ
deriving DecidableEq, Repr

/-- The loop body of `plot_crf` for one requested type: look up its cluster
IDs in `types.d_main_IDs` (KeyError if absent), map them to row indices of
the `4Hz_amp` matrix, take those rows, and compute the per-contrast mean
and standard deviation across them (`axis=0`). -/
def crf_curve (spikeout : SpikeOutputs) (str_type : String) : Option CRFCurve :=
  match List.lookup str_type spikeout.d_main_IDs with
  | none => none
  | some type_ids =>
    let type_idx := map_ids_to_idx type_ids spikeout.crf_cluster_id
    match rowsAt type_idx spikeout.crf_amp with
    | none => none
    | some arr_f1_amp =>
        some { label := str_type
             , mean := colMeans arr_f1_amp
             , var := colVars arr_f1_amp }

/-- Source `plot_crf(spikeout, ax, ls_types)`: default
`ls_types = spikeout.ls_RGC_labels`; one curve per requested type.  Axis
labels, ticks and the legend are presentation only and elided. -/
def plot_crf (spikeout : SpikeOutputs) (ls_types : Option (List String)) :
    Option (List CRFCurve) :=
  let types := ls_types.getD spikeout.ls_RGC_labels
  mapOptM (crf_curve spikeout) types

/-! ### Concrete test fixtures -/

/-- A concrete STA fit used in concrete instances. -/
def fitA : STAFit :=
  { x0 := 3, y0 := 4, SigmaX := 2, SigmaY := 1, Theta := 30
  , RedTimeCourse := [1, 2, 3], BlueTimeCourse := [1, 2, 3] }

/-- A second concrete STA fit. -/
def fitB : STAFit :=
  { x0 := 10, y0 := 1, SigmaX := 1, SigmaY := 5, Theta := 0
  , RedTimeCourse := [3, 2, 1], BlueTimeCourse := [3, 2, 1] }

/-- A concrete STA-fit dictionary with entries for cluster IDs 1 and 2. -/
def dstaT : Nat → Option STAFit := fun n =>
  if n = 1 then some fitA else if n = 2 then some fitB else none

/-- A concrete data container: type "A" holds cells 1, 2 and 7, of which
only 1 and 2 have STA fits. -/
def soT : SpikeOutputs :=
  { str_experiment := "exp", str_chunk := "chunk"
  , NOISE_GRID_SIZE := 2, d_sta := dstaT
  , d_main_IDs := [("A", [1, 2, 7])], ls_RGC_labels := ["A"]
  , crf_contrast := [1/20, 1/10, 1/5]
  , crf_cluster_id := [10, 20]
  , crf_amp := [[1, 2, 3], [3, 2, 1]] }

/-- A concrete data container for the contrast-response renderer: type "A"
maps to clusters 10 and 20, the two rows of the 2×3 amplitude matrix
`[[1,2,3],[3,2,1]]`. -/
def soCRF : SpikeOutputs :=
  { str_experiment := "exp", str_chunk := "chunk"
  , NOISE_GRID_SIZE := 2, d_sta := dstaT
  , d_main_IDs := [("A", [10, 20])], ls_RGC_labels := ["A"]
  , crf_contrast := [1/20, 1/10, 1/5]
  , crf_cluster_id := [10, 20]
  , crf_amp := [[1, 2, 3], [3, 2, 1]] }

/-- A concrete data container whose type "A" has no cells with STA fits,
and whose type mapping lacks the key "X". -/
def soEmptyA : SpikeOutputs :=
  { str_experiment := "exp", str_chunk := "chunk"
  , NOISE_GRID_SIZE := 2, d_sta := dstaT
  , d_main_IDs := [("A", [7, 8])], ls_RGC_labels := ["A"]
  , crf_contrast := [1/20, 1/10, 1/5]
  , crf_cluster_id := [10, 20]
  , crf_amp := [[1, 2, 3], [3, 2, 1]] }

/-! ### Helper lemmas -/

theorem get_rf_ells_length {L : List Nat} {F : Nat → Option STAFit} {g m : ℚ}
    {es : List Ellipse} (h : get_rf_ells L F g m = some es) :
    es.length = L.length := by
  induction L generalizing es with
  | nil =>
    simp only [get_rf_ells, Option.some.injEq] at h
    simp [← h]
  | cons n ns ih =>
    rw [get_rf_ells] at h
    cases hF : F n with
    | none => rw [hF] at h; simp at h
    | some fit =>
      rw [hF] at h
      cases hrec : get_rf_ells ns F g m with
      | none => rw [hrec] at h; simp at h
      | some rest =>
        rw [hrec] at h
        simp only [Option.some.injEq] at h
        subst h
        simp [ih hrec]

theorem get_rf_ells_isSome {L : List Nat} {F : Nat → Option STAFit} {g m : ℚ} :
    (get_rf_ells L F g m).isSome ↔ ∀ id ∈ L, (F id).isSome := by
  induction L with
  | nil => simp [get_rf_ells]
  | cons n ns ih =>
    rw [get_rf_ells]
    cases hF : F n with
    | none =>
      simp only [List.mem_cons]
      constructor
      · intro h; simp at h
      · intro h
        have := h n (Or.inl rfl)
        rw [hF] at this
        simp at this
    | some fit =>
      cases hrec : get_rf_ells ns F g m with
      | none =>
        rw [hrec] at ih
        simp only [Option.isSome_none, Bool.false_eq_true, false_iff] at ih
        push_neg at ih
        obtain ⟨id, hid, hnone⟩ := ih
        simp only [List.mem_cons]
        constructor
        · intro h; simp at h
        · intro h
          exact absurd (h id (Or.inr hid)) hnone
      | some rest =>
        rw [hrec] at ih
        simp only [Option.isSome_some, true_iff] at ih
        simp only [Option.isSome_some, true_iff, List.mem_cons]
        intro id hid
        rcases hid with rfl | hid
        · rw [hF]; rfl
        · exact ih id hid

theorem get_rf_ells_get {L : List Nat} {F : Nat → Option STAFit} {g m : ℚ}
    {es : List Ellipse} (h : get_rf_ells L F g m = some es) :
    ∀ (i id : Nat) (fit : STAFit), L[i]? = some id → F id = some fit →
      es[i]? = some ({ cx := fit.x0 * g, cy := fit.y0 * g
                     , width := fit.SigmaX * 2 * g * m
                     , height := fit.SigmaY * 2 * g * m
                     , angle := fit.Theta } : Ellipse) := by
  induction L generalizing es with
  | nil => intro i id fit hL; simp at hL
  | cons n ns ih =>
    rw [get_rf_ells] at h
    cases hF : F n with
    | none => rw [hF] at h; simp at h
    | some fit0 =>
      rw [hF] at h
      cases hrec : get_rf_ells ns F g m with
      | none => rw [hrec] at h; simp at h
      | some rest =>
        rw [hrec] at h
        simp only [Option.some.injEq] at h
        subst h
        intro i id fit hL hfit
        cases i with
        | zero =>
          simp only [List.getElem?_cons_zero, Option.some.injEq] at hL
          subst hL
          rw [hF] at hfit
          simp only [Option.some.injEq] at hfit
          subst hfit
          simp
        | succ j =>
          simp only [List.getElem?_cons_succ] at hL ⊢
          exact ih hrec j id fit hL hfit

/-! ### Claim theorems -/

/-- C1: for every cluster-ID list `L`, STA-fit mapping `F` in which every
ID of `L` is a key, grid-size `g` and standard-deviation multiplier `m`,
`get_rf_ells` returns a sequence of the same length as `L`, in the same
order, whose `i`-th ellipse has center `(F[L[i]].x0*g, F[L[i]].y0*g)`,
width `F[L[i]].SigmaX*2*g*m`, height `F[L[i]].SigmaY*2*g*m` and angle
`F[L[i]].Theta`. -/
theorem get_rf_ells_correct (L : List Nat) (F : Nat → Option STAFit) (g m : ℚ)
    (hkeys : ∀ id ∈ L, (F id).isSome) :
    ∃ es, get_rf_ells L F g m = some es ∧ es.length = L.length ∧
      ∀ (i id : Nat) (fit : STAFit), L[i]? = some id → F id = some fit →
        es[i]? = some ({ cx := fit.x0 * g, cy := fit.y0 * g
                       , width := fit.SigmaX * 2 * g * m
                       , height := fit.SigmaY * 2 * g * m
                       , angle := fit.Theta } : Ellipse) := by
  have hsome : (get_rf_ells L F g m).isSome := get_rf_ells_isSome.mpr hkeys
  obtain ⟨es, hes⟩ := Option.isSome_iff_exists.mp hsome
  exact ⟨es, hes, get_rf_ells_length hes, get_rf_ells_get hes⟩

/-- C1 witness: evaluation of the theorem at a concrete input
(`L = [2, 1]`, both IDs present in `dstaT`). -/
theorem get_rf_ells_correct_witness :
    ∃ es, get_rf_ells [2, 1] dstaT 2 (13/10) = some es ∧ es.length = [2, 1].length ∧
      ∀ (i id : Nat) (fit : STAFit), ([2, 1] : List Nat)[i]? = some id → dstaT id = some fit →
        es[i]? = some ({ cx := fit.x0 * 2, cy := fit.y0 * 2
                       , width := fit.SigmaX * 2 * 2 * (13/10)
                       , height := fit.SigmaY * 2 * 2 * (13/10)
                       , angle := fit.Theta } : Ellipse) :=
  get_rf_ells_correct [2, 1] dstaT 2 (13/10) (by decide)

/-- C7: `get_rf_ells` fails (with the KeyError of `d_sta[n_ID]`, the only
fallible operation it performs) if and only if some requested cluster ID is
absent from the STA-fit mapping; when every requested ID is present it
succeeds. -/
theorem get_rf_ells_key_fault (L : List Nat) (F : Nat → Option STAFit) (g m : ℚ) :
    (get_rf_ells L F g m).isSome ↔ ∀ id ∈ L, (F id).isSome :=
  get_rf_ells_isSome

theorem mapIdxM_some_get {α β : Type} {f : Nat → α → Option β} {i0 : Nat}
    {xs : List α} {ys : List β} (h : mapIdxM f i0 xs = some ys) :
    ys.length = xs.length ∧
    ∀ (j : Nat) (x : α), xs[j]? = some x →
      ∃ y, ys[j]? = some y ∧ f (i0 + j) x = some y := by
  induction xs generalizing i0 ys with
  | nil =>
    simp only [mapIdxM, Option.some.injEq] at h
    subst h
    exact ⟨rfl, by intro j x hx; simp at hx⟩
  | cons a as ih =>
    rw [mapIdxM] at h
    cases hf : f i0 a with
    | none => rw [hf] at h; simp at h
    | some b =>
      rw [hf] at h
      cases hrec : mapIdxM f (i0 + 1) as with
      | none => rw [hrec] at h; simp at h
      | some bs =>
        rw [hrec] at h
        simp only [Option.some.injEq] at h
        subst h
        obtain ⟨hlen, hget⟩ := ih hrec
        refine ⟨by simp [hlen], ?_⟩
        intro j x hx
        cases j with
        | zero =>
          simp only [List.getElem?_cons_zero, Option.some.injEq] at hx
          subst hx
          exact ⟨b, by simp, by simpa using hf⟩
        | succ k =>
          simp only [List.getElem?_cons_succ] at hx ⊢
          obtain ⟨y, hy, hfy⟩ := hget k x hx
          refine ⟨y, hy, ?_⟩
          have harith : i0 + (k + 1) = i0 + 1 + k := by omega
          rw [harith]
          exact hfy

theorem mapIdxM_isSome {α β : Type} {f : Nat → α → Option β} {i0 : Nat}
    {xs : List α} :
    (mapIdxM f i0 xs).isSome ↔
      ∀ (j : Nat) (x : α), xs[j]? = some x → (f (i0 + j) x).isSome := by
  induction xs generalizing i0 with
  | nil => simp [mapIdxM]
  | cons a as ih =>
    rw [mapIdxM]
    cases hf : f i0 a with
    | none =>
      constructor
      · intro h; simp at h
      · intro h
        have h0 := h 0 a (by simp)
        rw [Nat.add_zero, hf] at h0
        simp at h0
    | some b =>
      have ih' := @ih (i0 + 1)
      cases hrec : mapIdxM f (i0 + 1) as with
      | none =>
        rw [hrec] at ih'
        simp only [Option.isSome_none, Bool.false_eq_true, false_iff] at ih'
        push_neg at ih'
        obtain ⟨j, x, hx, hnone⟩ := ih'
        constructor
        · intro h; simp at h
        · intro h
          have hj := h (j + 1) x (by simpa using hx)
          have harith : i0 + (j + 1) = i0 + 1 + j := by omega
          rw [harith] at hj
          exact absurd hj hnone
      | some bs =>
        rw [hrec] at ih'
        simp only [Option.isSome_some, true_iff] at ih'
        simp only [Option.isSome_some, true_iff]
        intro j x hx
        cases j with
        | zero =>
          simp only [List.getElem?_cons_zero, Option.some.injEq] at hx
          subst hx
          rw [Nat.add_zero, hf]
          rfl
        | succ k =>
          simp only [List.getElem?_cons_succ] at hx
          have harith : i0 + (k + 1) = i0 + 1 + k := by omega
          rw [harith]
          exact ih' k x hx

theorem mapIdxM_none_of_mem {α β : Type} {f : Nat → α → Option β} {x : α}
    {xs : List α} (hx : x ∈ xs) (hf : ∀ i, f i x = none) (i0 : Nat) :
    mapIdxM f i0 xs = none := by
  induction xs generalizing i0 with
  | nil => simp at hx
  | cons a as ih =>
    rw [mapIdxM]
    rcases List.mem_cons.mp hx with rfl | hmem
    · rw [hf i0]
    · rw [ih hmem (i0 + 1)]
      cases f i0 a <;> rfl

theorem mapOptM_forall₂ {α β : Type} {f : α → Option β} {xs : List α}
    {ys : List β} (h : mapOptM f xs = some ys) :
    List.Forall₂ (fun x y => f x = some y) xs ys := by
  induction xs generalizing ys with
  | nil =>
    simp only [mapOptM, Option.some.injEq] at h
    subst h
    exact List.Forall₂.nil
  | cons a as ih =>
    rw [mapOptM] at h
    cases hf : f a with
    | none => rw [hf] at h; simp at h
    | some b =>
      rw [hf] at h
      cases hrec : mapOptM f as with
      | none => rw [hrec] at h; simp at h
      | some bs =>
        rw [hrec] at h
        simp only [Option.some.injEq] at h
        subst h
        exact List.Forall₂.cons hf (ih hrec)

theorem getWaveforms_eq_some {l : List Nat} {d : Nat → Option STAFit}
    {chan : STAFit → List ℚ} (h : ∀ c ∈ l, (d c).isSome) :
    ∃ ws, getWaveforms l d chan = some ws := by
  induction l with
  | nil => exact ⟨[], rfl⟩
  | cons n ns ih =>
    obtain ⟨ws, hws⟩ := ih (fun c hc => h c (List.mem_cons_of_mem _ hc))
    have hn := h n (List.mem_cons_self _ _)
    obtain ⟨fit, hfit⟩ := Option.isSome_iff_exists.mp hn
    exact ⟨chan fit :: ws, by rw [getWaveforms, hfit, hws]⟩

theorem drawElls_replicate {es : List Ellipse} {c : Color} {alpha : ℚ}
    {ec : Color} {lw : ℚ} :
    drawElls es (List.replicate es.length c) alpha ec lw =
      some (es.map (fun e =>
        { ell := e, alpha := alpha, edgecolor := ec, facecolor := c, lw := lw })) := by
  induction es with
  | nil => rfl
  | cons e rest ih =>
    simp only [List.length_cons, List.replicate_succ, drawElls, ih, List.map_cons]

theorem applyLabels_artists (b : Bool) (es : List Ellipse) (cs : List Nat)
    (ax : AxState) : (applyLabels b es cs ax).artists = ax.artists := by
  cases b <;> rfl

theorem applyLabels_xlim (b : Bool) (es : List Ellipse) (cs : List Nat)
    (ax : AxState) : (applyLabels b es cs ax).xlim = ax.xlim := by
  cases b <;> rfl

theorem applyLabels_ylim (b : Bool) (es : List Ellipse) (cs : List Nat)
    (ax : AxState) : (applyLabels b es cs ax).ylim = ax.ylim := by
  cases b <;> rfl

theorem applyZoom_artists (b : Bool) (es : List Ellipse) (ax : AxState) :
    (applyZoom b es ax).artists = ax.artists := by
  cases b <;> cases es <;> rfl

theorem applyZoom_true_nonempty {es : List Ellipse} (ax : AxState)
    (hne : es ≠ []) :
    ∃ xmin xmax ymin ymax,
      foldMin (es.map (fun el => el.cx)) = some xmin ∧
      foldMax (es.map (fun el => el.cx)) = some xmax ∧
      foldMin (es.map (fun el => el.cy)) = some ymin ∧
      foldMax (es.map (fun el => el.cy)) = some ymax ∧
      (applyZoom true es ax).xlim = some (xmin - 400, xmax + 400) ∧
      (applyZoom true es ax).ylim = some (ymin - 400, ymax + 400) := by
  cases es with
  | nil => exact absurd rfl hne
  | cons e0 rest => exact ⟨_, _, _, _, rfl, rfl, rfl, rfl, rfl, rfl⟩

theorem plot_rfs_some_inv {so : SpikeOutputs} {cells : List Nat}
    {colorO : Option Color} {axO : Option AxState} {sd alpha : ℚ}
    {fc : FaceColor} {SC : Option ℚ} {bl bz : Bool} {lw : ℚ} {rng : Color}
    {ax' : AxState} {es : List Ellipse}
    (h : plot_rfs so cells colorO axO sd alpha fc SC bl bz lw rng = some (ax', es)) :
    ∃ artists,
      get_rf_ells cells so.d_sta (scalingOf so SC) sd = some es ∧
      drawElls es (broadcastFace fc es.length) alpha (ecolorOf colorO rng) lw =
        some artists ∧
      ax' = applyZoom bz es (applyLabels bl es cells
              { axInit axO SC with
                  artists := (axInit axO SC).artists ++ artists }) := by
  cases hge : get_rf_ells cells so.d_sta (scalingOf so SC) sd with
  | none => simp [plot_rfs, hge] at h
  | some ells =>
    cases hd : drawElls ells (broadcastFace fc ells.length) alpha
        (ecolorOf colorO rng) lw with
    | none => simp [plot_rfs, hge, hd] at h
    | some arts =>
      simp only [plot_rfs, hge, hd, Option.some.injEq, Prod.mk.injEq] at h
      obtain ⟨hax, hells⟩ := h
      subst hells
      exact ⟨arts, rfl, hd, hax.symm⟩

theorem rf_panel_inv {data : SpikeOutputs} {d_IDs : List (String × List Nat)}
    {cols : List Color} {fcs : List FaceColor} {labels : List String}
    {alpha : ℚ} {bz : Bool} {sd : ℚ} {rng : Color} {i : Nat} {key : String}
    {p : RFPanel} {cells0 : List Nat}
    (h : rf_panel data d_IDs cols fcs labels alpha bz sd rng i key = some p)
    (hc : List.lookup key d_IDs = some cells0) :
    get_rf_ells (cells0.filter (fun c => (data.d_sta c).isSome)) data.d_sta
        data.NOISE_GRID_SIZE sd = some p.ells ∧
    p.ells.length = (cells0.filter (fun c => (data.d_sta c).isSome)).length ∧
    ∃ lbl, labels[i]? = some lbl ∧
      p.ax.title = lbl ++ " (n=" ++
        toString (cells0.filter (fun c => (data.d_sta c).isSome)).length ++ ") RFs" := by
  cases hlbl : labels[i]? with
  | none => simp [rf_panel, hc, hlbl] at h
  | some lbl =>
    cases hcol : cols[i]? with
    | none => simp [rf_panel, hc, hlbl, hcol] at h
    | some col =>
      cases hfc : fcs[i]? with
      | none => simp [rf_panel, hc, hlbl, hcol, hfc] at h
      | some fc =>
        cases hp : plot_rfs data (cells0.filter (fun c => (data.d_sta c).isSome))
            (some col) (some freshAx) sd alpha fc none false bz 1 rng with
        | none => simp [rf_panel, hc, hlbl, hcol, hfc, hp] at h
        | some pr =>
          obtain ⟨ax1, ells⟩ := pr
          simp only [rf_panel, hc, hlbl, hcol, hfc, hp, Option.some.injEq] at h
          subst h
          obtain ⟨arts, hge, hdr, hax⟩ := plot_rfs_some_inv hp
          exact ⟨hge, get_rf_ells_length hge, lbl, rfl, rfl⟩

theorem tc_panel_inv {data : SpikeOutputs} {colors : List Color}
    {labels : List String} {alpha : ℚ} {bpm : Bool} {lw : ℚ} {i : Nat}
    {key : String} {p : TCPanel} {cells0 : List Nat}
    (h : tc_panel data colors labels alpha bpm lw i key = some p)
    (hc : List.lookup key data.d_main_IDs = some cells0) :
    p.cells = cells0.filter (fun c => (data.d_sta c).isSome) ∧
    ∃ lbl, labels[i]? = some lbl ∧
      p.title = lbl ++ " (n=" ++
        toString (cells0.filter (fun c => (data.d_sta c).isSome)).length ++
        ") timecourses" := by
  cases hlbl : labels[i]? with
  | none => simp [tc_panel, hc, hlbl] at h
  | some lbl =>
    cases bpm with
    | false =>
      cases hiw : indivWaveforms (cells0.filter (fun c => (data.d_sta c).isSome))
          data.d_sta colors with
      | none => simp [tc_panel, hc, hlbl, hiw] at h
      | some curves =>
        simp only [tc_panel, hc, hlbl, hiw, Bool.false_eq_true, if_false,
          Option.some.injEq] at h
        subst h
        exact ⟨rfl, lbl, rfl, rfl⟩
    | true =>
      cases hr : getWaveforms (cells0.filter (fun c => (data.d_sta c).isSome))
          data.d_sta (fun f => f.RedTimeCourse) with
      | none => simp [tc_panel, hc, hlbl, hr] at h
      | some reds =>
      cases hb : getWaveforms (cells0.filter (fun c => (data.d_sta c).isSome))
          data.d_sta (fun f => f.BlueTimeCourse) with
      | none => simp [tc_panel, hc, hlbl, hr, hb] at h
      | some blues =>
      cases hc0 : colors[0]? with
      | none => simp [tc_panel, hc, hlbl, hr, hb, hc0] at h
      | some c0 =>
      cases hc1 : colors[1]? with
      | none => simp [tc_panel, hc, hlbl, hr, hb, hc0, hc1] at h
      | some c1 =>
      cases hcell : cells0.filter (fun c => (data.d_sta c).isSome) with
      | nil =>
        rw [hcell] at hr hb
        simp [tc_panel, hc, hlbl, hr, hb, hc0, hc1, hcell] at h
      | cons cta cts =>
        rw [hcell] at hr hb
        simp only [tc_panel, hc, hlbl, hr, hb, hc0, hc1, hcell, if_true,
          Option.some.injEq] at h
        subst h
        exact ⟨rfl, lbl, rfl, rfl⟩

/-- C2: in `plot_type_rfs` and `plot_type_tcs`, each type's cluster-ID list
is filtered to the IDs that are keys of `d_sta`, and only the filtered cells
are rendered: the RF panel's ellipses are exactly those of the filtered
list (same count), and each panel's reported `n` in the title equals the
filtered list's length.  (Labels defaulted, so the panel label is the key.) -/
theorem type_grids_filter_cells (data : SpikeOutputs) (keys : List String)
    (ls_colors : List Color) (alpha : ℚ) (tikOff : Bool)
    (d_IDs : List (String × List Nat))
    (bz : Bool) (sd : ℚ) (rng : Color) {rps : List RFPanel}
    (cols2 : Option (List Color)) (alpha2 : ℚ) (bpm : Bool) (lw : ℚ)
    (dIDs2 : Option (List (String × List Nat))) {tps : List TCPanel}
    (i : Nat) (key : String) (cellsA cellsB : List Nat)
    (hrf : plot_type_rfs data (some keys) ls_colors none alpha tikOff none
             (some d_IDs) bz sd rng = some rps)
    (htc : plot_type_tcs data (some keys) cols2 alpha2 bpm none lw dIDs2 = some tps)
    (hk : keys[i]? = some key)
    (hA : List.lookup key d_IDs = some cellsA)
    (hB : List.lookup key data.d_main_IDs = some cellsB) :
    (∃ rp, rps[i]? = some rp ∧
       get_rf_ells (cellsA.filter (fun c => (data.d_sta c).isSome)) data.d_sta
         data.NOISE_GRID_SIZE sd = some rp.ells ∧
       rp.ells.length = (cellsA.filter (fun c => (data.d_sta c).isSome)).length ∧
       rp.ax.title = key ++ " (n=" ++
         toString (cellsA.filter (fun c => (data.d_sta c).isSome)).length ++ ") RFs") ∧
    (∃ tp, tps[i]? = some tp ∧
       tp.cells = cellsB.filter (fun c => (data.d_sta c).isSome) ∧
       tp.title = key ++ " (n=" ++
         toString (cellsB.filter (fun c => (data.d_sta c).isSome)).length ++
         ") timecourses") := by
  constructor
  · simp only [plot_type_rfs, Option.getD_some, Option.getD_none] at hrf
    obtain ⟨hlen, hget⟩ := mapIdxM_some_get hrf
    obtain ⟨rp, hrp, hpanel⟩ := hget i key hk
    rw [Nat.zero_add] at hpanel
    obtain ⟨hells, hlen2, lbl, hlbl, htitle⟩ := rf_panel_inv hpanel hA
    rw [hk] at hlbl
    simp only [Option.some.injEq] at hlbl
    subst hlbl
    exact ⟨rp, hrp, hells, hlen2, htitle⟩
  · simp only [plot_type_tcs, Option.getD_some, Option.getD_none] at htc
    obtain ⟨hlen, hget⟩ := mapIdxM_some_get htc
    obtain ⟨tp, htp, hpanel⟩ := hget i key hk
    rw [Nat.zero_add] at hpanel
    obtain ⟨hcells, lbl, hlbl, htitle⟩ := tc_panel_inv hpanel hB
    rw [hk] at hlbl
    simp only [Option.some.injEq] at hlbl
    subst hlbl
    exact ⟨tp, htp, hcells, htitle⟩

/-- C2 witness: evaluation at a concrete input (`soT`, one type "A" with
cells `[1, 2, 7]`, of which 1 and 2 have STA fits). -/
theorem type_grids_filter_cells_witness :
    ∃ rps tps,
      plot_type_rfs soT (some ["A"]) [Color.named ("C0")] none (3/5) true none
        (some [("A", [1, 2, 7])]) false (13/10) (Color.rgb 0 0 0) = some rps ∧
      plot_type_tcs soT (some ["A"]) none (3/5) true none 1 none = some tps ∧
      ((∃ rp, rps[0]? = some rp ∧
         get_rf_ells ([1, 2, 7].filter (fun c => (soT.d_sta c).isSome)) soT.d_sta
           soT.NOISE_GRID_SIZE (13/10) = some rp.ells ∧
         rp.ells.length = ([1, 2, 7].filter (fun c => (soT.d_sta c).isSome)).length ∧
         rp.ax.title = "A" ++ " (n=" ++
           toString ([1, 2, 7].filter (fun c => (soT.d_sta c).isSome)).length ++ ") RFs") ∧
      (∃ tp, tps[0]? = some tp ∧
         tp.cells = [1, 2, 7].filter (fun c => (soT.d_sta c).isSome) ∧
         tp.title = "A" ++ " (n=" ++
           toString ([1, 2, 7].filter (fun c => (soT.d_sta c).isSome)).length ++
           ") timecourses")) := by
  refine ⟨_, _, rfl, rfl, ?_⟩
  exact type_grids_filter_cells soT ["A"] [Color.named ("C0")] (3/5) true
    [("A", [1, 2, 7])] false (13/10) (Color.rgb 0 0 0) none (3/5) true 1 none
    0 ("A") [1, 2, 7] [1, 2, 7] rfl rfl rfl (by decide) (by decide)

/-- C3: in `plot_rfs` with auto-zoom enabled, when at least one ellipse is
present the x-range is set to [min center x − 400, max center x + 400] and
the y-range to [min center y − 400, max center y + 400]; with zero
ellipses the auto-zoom step is skipped entirely (the result equals that of
a run with auto-zoom disabled, so no zoom range is set). -/
theorem plot_rfs_autozoom :
    (∀ (so : SpikeOutputs) (cells : List Nat) (color : Option Color)
       (ax : Option AxState) (sd alpha : ℚ) (fc : FaceColor) (SC : Option ℚ)
       (bl : Bool) (lw : ℚ) (rng : Color) (ax' : AxState) (es : List Ellipse),
       plot_rfs so cells color ax sd alpha fc SC bl true lw rng = some (ax', es) →
       es ≠ [] →
       ∃ xmin xmax ymin ymax,
         foldMin (es.map (fun el => el.cx)) = some xmin ∧
         foldMax (es.map (fun el => el.cx)) = some xmax ∧
         foldMin (es.map (fun el => el.cy)) = some ymin ∧
         foldMax (es.map (fun el => el.cy)) = some ymax ∧
         ax'.xlim = some (xmin - 400, xmax + 400) ∧
         ax'.ylim = some (ymin - 400, ymax + 400)) ∧
    (∀ (so : SpikeOutputs) (color : Option Color) (ax : Option AxState)
       (sd alpha : ℚ) (fc : FaceColor) (SC : Option ℚ) (bl : Bool) (lw : ℚ)
       (rng : Color),
       plot_rfs so [] color ax sd alpha fc SC bl true lw rng =
       plot_rfs so [] color ax sd alpha fc SC bl false lw rng) := by
  constructor
  · intro so cells color ax sd alpha fc SC bl lw rng ax' es h hne
    obtain ⟨arts, hge, hdr, hax⟩ := plot_rfs_some_inv h
    subst hax
    obtain ⟨xmin, xmax, ymin, ymax, h1, h2, h3, h4, h5, h6⟩ :=
      applyZoom_true_nonempty (applyLabels bl es cells
        { axInit ax SC with
            artists := (axInit ax SC).artists ++ arts }) hne
    exact ⟨xmin, xmax, ymin, ymax, h1, h2, h3, h4, h5, h6⟩
  · intro so color ax sd alpha fc SC bl lw rng
    rfl

/-- C3 witness: evaluation of the nonempty case at a concrete input. -/
theorem plot_rfs_autozoom_witness :
    ∃ ax' es,
      plot_rfs soT [1, 2] (some (Color.named ("r"))) none (13/10) (3/5)
        (FaceColor.single (Color.named ("k"))) none false true 1
        (Color.rgb 0 0 0) = some (ax', es) ∧
      ∃ xmin xmax ymin ymax,
        foldMin (es.map (fun el => el.cx)) = some xmin ∧
        foldMax (es.map (fun el => el.cx)) = some xmax ∧
        foldMin (es.map (fun el => el.cy)) = some ymin ∧
        foldMax (es.map (fun el => el.cy)) = some ymax ∧
        ax'.xlim = some (xmin - 400, xmax + 400) ∧
        ax'.ylim = some (ymin - 400, ymax + 400) :=
  ⟨_, _, rfl,
    plot_rfs_autozoom.1 soT [1, 2] (some (Color.named ("r"))) none (13/10) (3/5)
      (FaceColor.single (Color.named ("k"))) none false 1 (Color.rgb 0 0 0)
      _ _ rfl (by decide)⟩

/-- C6: in `plot_rfs`, a uniform face color (single color, the
tuple/str case of the source) is broadcast to every ellipse: each drawn
ellipse artist receives that same face color. -/
theorem plot_rfs_facecolor_broadcast (so : SpikeOutputs) (cells : List Nat)
    (ec : Option Color) (sd alpha : ℚ) (c : Color) (SC : Option ℚ)
    (bl bz : Bool) (lw : ℚ) (rng : Color) (ax' : AxState) (es : List Ellipse)
    (h : plot_rfs so cells ec none sd alpha (FaceColor.single c) SC bl bz lw rng =
           some (ax', es)) :
    ∀ d ∈ ax'.artists, d.facecolor = c := by
  obtain ⟨arts, hge, hdr, hax⟩ := plot_rfs_some_inv h
  rw [show broadcastFace (FaceColor.single c) es.length =
        List.replicate es.length c from rfl, drawElls_replicate] at hdr
  simp only [Option.some.injEq] at hdr
  subst hax
  intro d hd
  rw [applyZoom_artists, applyLabels_artists] at hd
  simp only at hd
  rw [show (axInit none SC).artists = [] by cases SC <;> rfl] at hd
  rw [List.nil_append, ← hdr] at hd
  obtain ⟨e, he, rfl⟩ := List.mem_map.mp hd
  rfl

/-- C6 witness: evaluation at a concrete input with a uniform face color. -/
theorem plot_rfs_facecolor_broadcast_witness :
    ∃ ax' es,
      plot_rfs soT [1, 2] (some (Color.named ("r"))) none (13/10) (3/5)
        (FaceColor.single (Color.rgb 1 0 0)) none false true 1
        (Color.rgb 0 0 0) = some (ax', es) ∧
      ∀ d ∈ ax'.artists, d.facecolor = Color.rgb 1 0 0 :=
  ⟨_, _, rfl,
    plot_rfs_facecolor_broadcast soT [1, 2] (some (Color.named ("r"))) (13/10)
      (3/5) (Color.rgb 1 0 0) none false true 1 (Color.rgb 0 0 0) _ _ rfl⟩

/-- C8 counterexample: `plot_rfs` with the default `ell_color=None` draws
its edge color from numpy's global random generator (modelled by the
`rng_color` argument), so two invocations whose source-level arguments and
rendering surface are identical can produce different drawn output — the
renderer is not a pure function of its inputs plus the surface. -/
theorem plot_rfs_rng_dependent :
    plot_rfs soT [1] none none (13/10) (3/5) (FaceColor.single (Color.named ("k")))
        none false true 1 (Color.rgb 0 0 0) ≠
      plot_rfs soT [1] none none (13/10) (3/5) (FaceColor.single (Color.named ("k")))
        none false true 1 (Color.rgb 1 1 1) := by
  intro h
  have h2 := congrArg
    (fun o => o.map (fun p => p.1.artists.map (fun d => d.edgecolor))) h
  exact absurd h2 (by decide)

/-- C8 (amended): `plot_rfs` is a deterministic function of its arguments
plus the surface whenever an explicit `ell_color` is supplied — the global
random generator state (`rng_color`) then has no effect on the drawn
output — and `plot_type_rfs`, which always passes an explicit color to
`plot_rfs`, is deterministic regardless. -/
theorem renderers_deterministic_with_explicit_color :
    (∀ (so : SpikeOutputs) (cells : List Nat) (c : Color) (ax : Option AxState)
       (sd alpha : ℚ) (fc : FaceColor) (SC : Option ℚ) (bl bz : Bool) (lw : ℚ)
       (r1 r2 : Color),
       plot_rfs so cells (some c) ax sd alpha fc SC bl bz lw r1 =
         plot_rfs so cells (some c) ax sd alpha fc SC bl bz lw r2) ∧
    (∀ (data : SpikeOutputs) (keys : Option (List String)) (cols : List Color)
       (fcs : Option (List FaceColor)) (alpha : ℚ) (tik : Bool)
       (labels : Option (List String)) (dIDs : Option (List (String × List Nat)))
       (bz : Bool) (sd : ℚ) (r1 r2 : Color),
       plot_type_rfs data keys cols fcs alpha tik labels dIDs bz sd r1 =
         plot_type_rfs data keys cols fcs alpha tik labels dIDs bz sd r2) := by
  constructor
  · intro so cells c ax sd alpha fc SC bl bz lw r1 r2
    rfl
  · intro data keys cols fcs alpha tik labels dIDs bz sd r1 r2
    rfl

/-- C9: `plot_type_tcs` ignores a caller-supplied `d_IDs` mapping when
selecting the cells to plot: with an explicit key list the output does not
depend on `d_IDs` at all (the loop body reads `data.types.d_main_IDs`),
and a key present in `d_IDs` but absent from `d_main_IDs` (with the
default key list taken from `d_IDs`) causes a key-lookup fault. -/
theorem plot_type_tcs_ignores_d_IDs :
    (∀ (data : SpikeOutputs) (keys : List String) (colors : Option (List Color))
       (alpha : ℚ) (bpm : Bool) (labels : Option (List String)) (lw : ℚ)
       (A B : List (String × List Nat)),
       plot_type_tcs data (some keys) colors alpha bpm labels lw (some A) =
         plot_type_tcs data (some keys) colors alpha bpm labels lw (some B)) ∧
    (∀ (data : SpikeOutputs) (A : List (String × List Nat)) (k : String)
       (colors : Option (List Color)) (alpha : ℚ) (bpm : Bool)
       (labels : Option (List String)) (lw : ℚ),
       List.lookup k data.d_main_IDs = none → k ∈ A.map Prod.fst →
       plot_type_tcs data none colors alpha bpm labels lw (some A) = none) := by
  constructor
  · intro data keys colors alpha bpm labels lw A B
    rfl
  · intro data A k colors alpha bpm labels lw hlk hkA
    simp only [plot_type_tcs, Option.getD_some, Option.getD_none]
    exact mapIdxM_none_of_mem hkA (fun i => by simp [tc_panel, hlk]) 0

/-- C9 witness: evaluation at concrete inputs (two different `d_IDs`
mappings give the same output; a `d_IDs` key "X" absent from
`d_main_IDs` faults). -/
theorem plot_type_tcs_ignores_d_IDs_witness :
    (plot_type_tcs soT (some ["A"]) none (3/5) true none 1 (some [("A", [1])]) =
       plot_type_tcs soT (some ["A"]) none (3/5) true none 1 (some [("B", [2])])) ∧
    plot_type_tcs soT none none (3/5) true none 1 (some [("X", [1])]) = none :=
  ⟨plot_type_tcs_ignores_d_IDs.1 soT ["A"] none (3/5) true none 1
      [("A", [1])] [("B", [2])],
   plot_type_tcs_ignores_d_IDs.2 soT [("X", [1])] "X" none (3/5) true none 1
      (by decide) (by decide)⟩

theorem tc_panel_mean_isSome {data : SpikeOutputs} {keys : List String}
    {alpha lw : ℚ} {j : Nat} {k : String} {cells : List Nat}
    (hk : keys[j]? = some k) (hc : List.lookup k data.d_main_IDs = some cells) :
    (tc_panel data [Color.named ("C1"), Color.named ("C0")] keys alpha true lw j k).isSome ↔
      cells.filter (fun c => (data.d_sta c).isSome) ≠ [] := by
  have hall : ∀ c ∈ cells.filter (fun c => (data.d_sta c).isSome),
      ((data.d_sta c).isSome) := by
    intro c hcmem
    exact (List.mem_filter.mp hcmem).2
  obtain ⟨reds, hr⟩ :=
    @getWaveforms_eq_some _ _ (fun f => f.RedTimeCourse) hall
  obtain ⟨blues, hb⟩ :=
    @getWaveforms_eq_some _ _ (fun f => f.BlueTimeCourse) hall
  cases hcell : cells.filter (fun c => (data.d_sta c).isSome) with
  | nil =>
    rw [hcell] at hr hb
    simp [tc_panel, hc, hk, hr, hb, hcell]
  | cons a as =>
    rw [hcell] at hr hb
    simp [tc_panel, hc, hk, hr, hb, hcell]

/-- C10: in `plot_type_tcs` with mean mode on (and default colors/labels),
provided every requested key is present in `d_main_IDs`, the run faults if
and only if some requested type's filtered cell list is empty (the
reduction over zero waveforms breaks the following plotting steps); when
every filtered list is nonempty the mean-mode computation completes. -/
theorem plot_type_tcs_mean_empty_fault (data : SpikeOutputs) (keys : List String)
    (alpha lw : ℚ) (d_IDs : Option (List (String × List Nat)))
    (hkeys : ∀ k ∈ keys, (List.lookup k data.d_main_IDs).isSome) :
    (plot_type_tcs data (some keys) none alpha true none lw d_IDs).isSome ↔
      ∀ k ∈ keys, ∀ cells, List.lookup k data.d_main_IDs = some cells →
        cells.filter (fun c => (data.d_sta c).isSome) ≠ [] := by
  simp only [plot_type_tcs, Option.getD_some, Option.getD_none]
  rw [mapIdxM_isSome]
  constructor
  · intro h k hkmem cells hcells
    obtain ⟨j, hj⟩ := List.mem_iff_getElem?.mp hkmem
    have hpan := h j k hj
    rw [Nat.zero_add] at hpan
    exact (tc_panel_mean_isSome hj hcells).mp hpan
  · intro h j k hj
    rw [Nat.zero_add]
    have hkmem : k ∈ keys := List.mem_iff_getElem?.mpr ⟨j, hj⟩
    obtain ⟨cells, hcells⟩ := Option.isSome_iff_exists.mp (hkeys k hkmem)
    exact (tc_panel_mean_isSome hj hcells).mpr (h k hkmem cells hcells)

/-- C10 witness: evaluation at a concrete input whose only type has a
nonempty filtered list. -/
theorem plot_type_tcs_mean_empty_fault_witness :
    (plot_type_tcs soT (some ["A"]) none (3/5) true none 1 none).isSome ↔
      ∀ k ∈ ["A"], ∀ cells, List.lookup k soT.d_main_IDs = some cells →
        cells.filter (fun c => (soT.d_sta c).isSome) ≠ [] :=
  plot_type_tcs_mean_empty_fault soT ["A"] (3/5) 1 none (by decide)

theorem crf_curve_inv {so : SpikeOutputs} {t : String} {c : CRFCurve}
    (h : crf_curve so t = some c) :
    ∃ ids rows, List.lookup t so.d_main_IDs = some ids ∧
      rowsAt (map_ids_to_idx ids so.crf_cluster_id) so.crf_amp = some rows ∧
      c = { label := t, mean := colMeans rows, var := colVars rows } := by
  cases hl : List.lookup t so.d_main_IDs with
  | none => simp [crf_curve, hl] at h
  | some ids =>
    cases hr : rowsAt (map_ids_to_idx ids so.crf_cluster_id) so.crf_amp with
    | none => simp [crf_curve, hl, hr] at h
    | some rows =>
      simp only [crf_curve, hl, hr, Option.some.injEq] at h
      exact ⟨ids, rows, rfl, hr, h.symm⟩

/-- C4: in `plot_crf`, each requested type's plotted curve is the
per-contrast arithmetic mean (and the population-standard-deviation band,
recorded as the variance, of which the plotted band half width is the
nonnegative square root) across the rows of the amplitude matrix selected
for that type; in particular for the single type mapping to the two rows of
the 2×3 matrix `[[1,2,3],[3,2,1]]` the plotted mean is `[2,2,2]`, the
standard deviation is exactly `[1,0,1]` (`isSqrtOf` of the variances
`[1,0,1]`), and the band is mean ± std = `[1,2,1]`..`[3,2,3]`. -/
theorem plot_crf_mean_band :
    (∀ (so : SpikeOutputs) (types : List String) (curves : List CRFCurve),
       plot_crf so (some types) = some curves →
       List.Forall₂ (fun t c => ∃ ids rows,
         List.lookup t so.d_main_IDs = some ids ∧
         rowsAt (map_ids_to_idx ids so.crf_cluster_id) so.crf_amp = some rows ∧
         c = { label := t, mean := colMeans rows, var := colVars rows })
         types curves) ∧
    (plot_crf soCRF (some ["A"]) =
       some [{ label := "A", mean := [2, 2, 2], var := [1, 0, 1] }] ∧
     isSqrtOf 1 1 ∧ isSqrtOf 0 0 ∧ isSqrtOf 1 1 ∧
     List.zipWith (fun a b => a - b) [2, 2, 2] ([1, 0, 1] : List ℚ) = [1, 2, 1] ∧
     List.zipWith (fun a b => a + b) [2, 2, 2] ([1, 0, 1] : List ℚ) = [3, 2, 3]) := by
  constructor
  · intro so types curves h
    simp only [plot_crf, Option.getD_some] at h
    exact List.Forall₂.imp (fun t c hf => crf_curve_inv hf) (mapOptM_forall₂ h)
  · have hlook : List.lookup ("A") soCRF.d_main_IDs = some [10, 20] := by decide
    have hidx : map_ids_to_idx [10, 20] soCRF.crf_cluster_id = [0, 1] := by decide
    have hrows : rowsAt [0, 1] soCRF.crf_amp = some [[1, 2, 3], [3, 2, 1]] := by
      decide
    have hmean : colMeans [[1, 2, 3], [3, 2, 1]] = [2, 2, 2] := by
      norm_num [colMeans, colAt, ncols, meanQ, List.range_succ, List.range_zero,
        List.filterMap_cons, List.getElem?_cons_zero, List.getElem?_cons_succ,
        List.sum_cons]
    have hvar : colVars [[1, 2, 3], [3, 2, 1]] = [1, 0, 1] := by
      norm_num [colVars, colAt, ncols, popVar, meanQ, List.range_succ,
        List.range_zero, List.filterMap_cons, List.getElem?_cons_zero,
        List.getElem?_cons_succ, List.sum_cons]
    refine ⟨?_, ⟨by norm_num, by norm_num⟩, ⟨by norm_num, by norm_num⟩,
      ⟨by norm_num, by norm_num⟩, by norm_num, by norm_num⟩
    simp [plot_crf, mapOptM, crf_curve, hlook, hidx, hrows, hmean, hvar]

/-- C4 witness: evaluation of the general clause at the concrete
contrast-response fixture. -/
theorem plot_crf_mean_band_witness :
    ∃ curves, plot_crf soCRF (some ["A"]) = some curves ∧
      List.Forall₂ (fun t c => ∃ ids rows,
        List.lookup t soCRF.d_main_IDs = some ids ∧
        rowsAt (map_ids_to_idx ids soCRF.crf_cluster_id) soCRF.crf_amp = some rows ∧
        c = { label := t, mean := colMeans rows, var := colVars rows })
        ["A"] curves := by
  refine ⟨_, rfl, ?_⟩
  exact plot_crf_mean_band.1 soCRF ["A"] _ rfl

/-- C5: in the mean-plotting mode of `plot_type_tcs`, the plotted mean and
band of a panel are the element-wise mean and population standard deviation
(recorded as the variance, the square of the plotted band half width)
across the filtered cells' waveforms, for each of the two channels; for two
cells with waveforms `[1,2,3]` and `[3,2,1]` the mean equals `[2,2,2]` and
the standard deviation equals `[1,0,1]` exactly (`isSqrtOf` of variances
`[1,0,1]`). -/
theorem plot_type_tcs_mean_std :
    (∀ (data : SpikeOutputs) (colors : List Color) (labels : List String)
       (alpha lw : ℚ) (i : Nat) (k : String) (p : TCPanel),
       tc_panel data colors labels alpha true lw i k = some p →
       ∀ cells0, List.lookup k data.d_main_IDs = some cells0 →
       ∃ reds blues,
         getWaveforms (cells0.filter (fun c => (data.d_sta c).isSome)) data.d_sta
           (fun f => f.RedTimeCourse) = some reds ∧
         getWaveforms (cells0.filter (fun c => (data.d_sta c).isSome)) data.d_sta
           (fun f => f.BlueTimeCourse) = some blues ∧
         p.content = TCContent.meanBands (colMeans reds) (colVars reds)
                       (colMeans blues) (colVars blues)) ∧
    (plot_type_tcs soT (some ["A"]) none (3/5) true none 1 none =
       some [{ cells := [1, 2]
             , content := TCContent.meanBands [2, 2, 2] [1, 0, 1] [2, 2, 2] [1, 0, 1]
             , title := "A (n=2) timecourses" }] ∧
     isSqrtOf 1 1 ∧ isSqrtOf 0 0 ∧ isSqrtOf 1 1) := by
  constructor
  · intro data colors labels alpha lw i k p h cells0 hc
    cases hlbl : labels[i]? with
    | none => simp [tc_panel, hc, hlbl] at h
    | some lbl =>
      cases hr : getWaveforms (cells0.filter (fun c => (data.d_sta c).isSome))
          data.d_sta (fun f => f.RedTimeCourse) with
      | none => simp [tc_panel, hc, hlbl, hr] at h
      | some reds =>
      cases hb : getWaveforms (cells0.filter (fun c => (data.d_sta c).isSome))
          data.d_sta (fun f => f.BlueTimeCourse) with
      | none => simp [tc_panel, hc, hlbl, hr, hb] at h
      | some blues =>
      cases hc0 : colors[0]? with
      | none => simp [tc_panel, hc, hlbl, hr, hb, hc0] at h
      | some c0 =>
      cases hc1 : colors[1]? with
      | none => simp [tc_panel, hc, hlbl, hr, hb, hc0, hc1] at h
      | some c1 =>
      cases hcell : cells0.filter (fun c => (data.d_sta c).isSome) with
      | nil =>
        rw [hcell] at hr hb
        simp [tc_panel, hc, hlbl, hr, hb, hc0, hc1, hcell] at h
      | cons cta cts =>
        rw [hcell] at hr hb
        simp only [tc_panel, hc, hlbl, hr, hb, hc0, hc1, hcell, if_true,
          Option.some.injEq] at h
        subst h
        exact ⟨reds, blues, rfl, rfl, rfl⟩
  · have hlook : List.lookup ("A") soT.d_main_IDs = some [1, 2, 7] := by decide
    have hfilt : [1, 2, 7].filter (fun c => (soT.d_sta c).isSome) = [1, 2] := by
      decide
    have hred : getWaveforms [1, 2] soT.d_sta (fun f => f.RedTimeCourse) =
        some [[1, 2, 3], [3, 2, 1]] := by decide
    have hblue : getWaveforms [1, 2] soT.d_sta (fun f => f.BlueTimeCourse) =
        some [[1, 2, 3], [3, 2, 1]] := by decide
    have hmean : colMeans [[1, 2, 3], [3, 2, 1]] = [2, 2, 2] := by
      norm_num [colMeans, colAt, ncols, meanQ, List.range_succ, List.range_zero,
        List.filterMap_cons, List.getElem?_cons_zero, List.getElem?_cons_succ,
        List.sum_cons]
    have hvar : colVars [[1, 2, 3], [3, 2, 1]] = [1, 0, 1] := by
      norm_num [colVars, colAt, ncols, popVar, meanQ, List.range_succ,
        List.range_zero, List.filterMap_cons, List.getElem?_cons_zero,
        List.getElem?_cons_succ, List.sum_cons]
    refine ⟨?_, ⟨by norm_num, by norm_num⟩, ⟨by norm_num, by norm_num⟩,
      ⟨by norm_num, by norm_num⟩⟩
    simp [plot_type_tcs, mapIdxM, tc_panel, hlook, hfilt, hred, hblue, hmean,
      hvar]
    decide

/-- C5 witness: evaluation of the general clause at the concrete fixture
(panel "A" of `soT`). -/
theorem plot_type_tcs_mean_std_witness :
    ∃ p, tc_panel soT [Color.named ("C1"), Color.named ("C0")] ["A"] (3/5) true 1
          0 ("A") = some p ∧
      ∃ reds blues,
        getWaveforms ([1, 2, 7].filter (fun c => (soT.d_sta c).isSome)) soT.d_sta
          (fun f => f.RedTimeCourse) = some reds ∧
        getWaveforms ([1, 2, 7].filter (fun c => (soT.d_sta c).isSome)) soT.d_sta
          (fun f => f.BlueTimeCourse) = some blues ∧
        p.content = TCContent.meanBands (colMeans reds) (colVars reds)
                      (colMeans blues) (colVars blues) := by
  refine ⟨_, rfl, ?_⟩
  exact plot_type_tcs_mean_std.1 soT [Color.named ("C1"), Color.named ("C0")] ["A"]
    (3/5) 1 0 ("A") _ rfl [1, 2, 7] rfl

end SpikePlots
